import Mathlib

/-!
Verification development for the MGMTD backend-adapter core
(`src/mgmtd/mgmt_be_adapter.c`): a shallow embedding of the XPath
matcher, the xpath-to-client subscription resolver, the adapter
lifecycle (create / subscribe / disconnect), the config-sync walk,
the transaction fan-out send surface, and the write flow-control
flag, together with theorems about them.
-/

/-- Total character access mirroring C string indexing: `s[i]` for
`0 ≤ i < strlen(s)` is the character, `s[strlen(s)]` is NUL, and any
out-of-range access is modelled as NUL as well. -/
def getC (s : List Char) (i : Int) : Char :=
  if 0 ≤ i then s.getD i.toNat (Char.ofNat 0) else Char.ofNat 0

/-- The single-quote character, a structural boundary in xpaths. -/
def squote : Char := Char.ofNat 39

/-- Loop state of `mgmt_be_eval_regexp_match`: the local variables of
the C function that live across iterations of its for-loop. -/
structure MatchSt where
  re_indx : Nat
  xp_indx : Nat
  match_len : Int
  matched : Bool
  re_wild : Bool
  xp_wild : Bool
  delim : Bool
  enter_wild : Bool
  wild_delim : Char
  deriving Repr, DecidableEq

/-- Initial loop state: indices 0, `match_len` 0, `match = true`, all
flags false. -/
def matchSt0 : MatchSt :=
  ⟨0, 0, 0, true, false, false, false, false, Char.ofNat 0⟩

/-- The wildcard-entry block of the for-loop body of
`mgmt_be_eval_regexp_match` (source lines 222-251): when the two
current characters differ and one of them is `'*'` preceded by a
structural boundary, start absorbing a wildcard on that side. -/
def matchStepEnter (R X : List Char) (st : MatchSt) : MatchSt :=
  let rc := getC R st.re_indx
  let xc := getC X st.xp_indx
  let m1 : Bool := rc = xc
  if ¬st.enter_wild ∧ ¬m1 ∧ (rc = '*' ∨ xc = '*') then
    let rprev := getC R ((st.re_indx : Int) - 1)
    let xprev := getC X ((st.xp_indx : Int) - 1)
    let e : Bool := rprev = '/' ∨ rprev = squote ∨ xprev = '/' ∨ xprev = squote
    if e then
      if rc = '*' then
        { st with enter_wild := true, re_wild := true, wild_delim := rprev }
      else
        { st with enter_wild := true, xp_wild := true, wild_delim := xprev }
    else
      { st with enter_wild := false }
  else st

/-- The wildcard-exit block of the for-loop body (source lines
253-275): stop absorbing a wildcard when the opposite side reaches the
remembered delimiter, bumping the absorbed side short of its end. -/
def matchStepExit (R X : List Char) (rexp_len xpath_len : Nat) (st : MatchSt) : MatchSt :=
  let rc := getC R st.re_indx
  let xc := getC X st.xp_indx
  if st.enter_wild then
    if st.re_wild ∧ xc = st.wild_delim then
      { st with re_wild := false, enter_wild := false,
                re_indx := if st.re_indx < rexp_len - 1 then st.re_indx + 1 else st.re_indx }
    else if st.xp_wild ∧ rc = st.wild_delim then
      { st with xp_wild := false, enter_wild := false,
                xp_indx := if st.xp_indx < xpath_len - 1 then st.xp_indx + 1 else st.xp_indx }
    else st
  else st

/-- The tail of the for-loop body (source lines 277-307): recompute
`match`, count a newly-paired structural delimiter, and advance each
side that is not absorbing a wildcard. -/
def matchStepTail (R X : List Char) (st : MatchSt) : MatchSt :=
  let rc4 := getC R st.re_indx
  let xc4 := getC X st.xp_indx
  let m4 : Bool := st.xp_wild ∨ st.re_wild ∨ rc4 = xc4
  let isDelim : Bool :=
    (rc4 = '/' ∧ xc4 = '/') ∨ (rc4 = ']' ∧ xc4 = ']') ∨ (rc4 = '[' ∧ xc4 = '[')
  let s5 :=
    if isDelim then
      if m4 ∧ st.re_indx ≠ 0 ∧ st.xp_indx ≠ 0 ∧ ¬st.delim then
        { st with match_len := st.match_len + 1, delim := true }
      else
        { st with delim := true }
    else
      { st with delim := false }
  { s5 with matched := m4,
            re_indx := if ¬s5.re_wild then s5.re_indx + 1 else s5.re_indx,
            xp_indx := if ¬s5.xp_wild then s5.xp_indx + 1 else s5.xp_indx }

/-- One iteration of the for-loop body of `mgmt_be_eval_regexp_match`
(source lines 218-308), with `R`/`X` the full (untrimmed) regexp and
xpath character lists and `rexp_len`/`xpath_len` the trimmed lengths.
The wildcard-entry block leaves the indices unchanged, so the exit
block reading the current characters off its input state reads the
same characters the C body holds in hand. -/
def matchStep (R X : List Char) (rexp_len xpath_len : Nat) (st : MatchSt) : MatchSt :=
  matchStepTail R X (matchStepExit R X rexp_len xpath_len (matchStepEnter R X st))

/-- The for-loop of `mgmt_be_eval_regexp_match`: iterate `matchStep`
while `match && re_indx < rexp_len && xp_indx < xpath_len`; `fuel`
bounds the iteration count (each iteration of the C loop advances at
least one index, so `rexp_len + xpath_len` iterations suffice). -/
def matchLoop (R X : List Char) (rexp_len xpath_len : Nat) : Nat → MatchSt → MatchSt
  | 0, st => st
  | fuel + 1, st =>
    if st.matched = true ∧ st.re_indx < rexp_len ∧ st.xp_indx < xpath_len then
      matchLoop R X rexp_len xpath_len fuel (matchStep R X rexp_len xpath_len st)
    else st

/-- Length of a C string after trimming one trailing `'*'`, as done at
the top of `mgmt_be_eval_regexp_match` (source lines 210-213). -/
def trimmedLen (s : List Char) : Nat :=
  if s.length ≠ 0 ∧ getC s ((s.length : Int) - 1) = '*' then s.length - 1 else s.length

/-- Shallow embedding of `mgmt_be_eval_regexp_match` (source lines
195-320): compute the match length of an instance xpath against a
registered xpath pattern. -/
def mgmt_be_eval_regexp_match (xpath_regexp xpath : String) : Int :=
  let R := xpath_regexp.data
  let X := xpath.data
  let rexp_len := trimmedLen R
  let xpath_len := trimmedLen X
  if rexp_len = 0 ∨ xpath_len = 0 then 0
  else
    let stf := matchLoop R X rexp_len xpath_len (rexp_len + xpath_len) matchSt0
    if stf.matched = true ∧ stf.delim = false ∧
        (getC R stf.re_indx = '/' ∨ getC R stf.re_indx = ']') then
      stf.match_len + 1
    else stf.match_len

/-- Per-(pattern, client) capability record, mirroring the per-client
entry of `struct mgmt_be_client_subscr_info`. -/
structure MgmtBeClientSubscr where
  validate_config : Bool
  notify_config : Bool
  own_oper_data : Bool
  deriving Repr, DecidableEq

/-- Modelled from the spec: the `subscribed` accessor of the per-client
record (a union overlay of the three capability bits in the C header,
which is not under `src/`): a client is subscribed iff any of its three
capability bits is set ("Absence of a record means the client is not
subscribed to that pattern"). -/
def MgmtBeClientSubscr.subscribed (r : MgmtBeClientSubscr) : Bool :=
  r.validate_config || r.notify_config || r.own_oper_data

/-- The all-false record: `memset 0`. -/
def subscrZero : MgmtBeClientSubscr := ⟨false, false, false⟩

/-- Modelled from the spec: the closed enumeration of backend client
ids (header not under `src/`): with `HAVE_STATICD`, `STATICD` is the
only known client and `MAX` is the sentinel one past it. -/
def MGMTD_BE_CLIENT_ID_STATICD : Nat := 0

/-- The sentinel client id, one past the last known client. -/
def MGMTD_BE_CLIENT_ID_MAX : Nat := 1

/-- Per-xpath subscriber table `struct mgmt_be_client_subscr_info`:
one capability record per client id (`xpath_subscr[MGMTD_BE_CLIENT_ID_MAX]`). -/
structure MgmtBeClientSubscrInfo where
  xpath_subscr : List MgmtBeClientSubscr
  deriving Repr, DecidableEq

/-- The zeroed subscriber table. -/
def subscrInfoZero : MgmtBeClientSubscrInfo :=
  ⟨List.replicate MGMTD_BE_CLIENT_ID_MAX subscrZero⟩

/-- One entry of `mgmt_xpath_map`: a registered pattern and its
subscriber table (`struct mgmt_be_xpath_regexp_map`). -/
structure MgmtBeXPathRegexpMap where
  xpath_regexp : String
  be_subscrs : MgmtBeClientSubscrInfo
  deriving Repr, DecidableEq

/-- The staticd control-plane-protocol pattern from
`xpath_static_map_reg[2]`, built without apostrophe literals. -/
def staticdCppXpath : String :=
  "/frr-routing:routing/control-plane-protocols/control-plane-protocol[type="
    ++ String.singleton squote ++ "frr-staticd:staticd" ++ String.singleton squote
    ++ "][name=" ++ String.singleton squote ++ "staticd" ++ String.singleton squote
    ++ "][vrf=" ++ String.singleton squote ++ "default" ++ String.singleton squote
    ++ "]/frr-staticd:staticd/*"

/-- The static registry `xpath_static_map_reg` (source lines 78-102):
each pattern with the list of client ids to notify (with
`HAVE_STATICD`, staticd on all three patterns). -/
def xpath_static_map_reg : List (String × List Nat) :=
  [("/frr-vrf:lib/*", [MGMTD_BE_CLIENT_ID_STATICD]),
   ("/frr-interface:lib/*", [MGMTD_BE_CLIENT_ID_STATICD]),
   (staticdCppXpath, [MGMTD_BE_CLIENT_ID_STATICD])]

/-- Set all three capability bits of client `id` in a subscriber table,
as the init loop does for each registered client. -/
def setSubscrAllBits (info : MgmtBeClientSubscrInfo) (id : Nat) : MgmtBeClientSubscrInfo :=
  ⟨info.xpath_subscr.set id ⟨true, true, true⟩⟩

/-- Shallow embedding of `mgmt_be_xpath_map_init` (source lines
156-193): build `mgmt_xpath_map` from the static registry, setting
`validate_config`, `notify_config` and `own_oper_data` for every
client id listed (ids `≥ MAX` terminate the inner loop and set
nothing). -/
def mgmt_be_xpath_map_init : List MgmtBeXPathRegexpMap :=
  xpath_static_map_reg.map (fun e =>
    ⟨e.1, (e.2.takeWhile (fun id => id ≠ MGMTD_BE_CLIENT_ID_MAX)).foldl
            (fun info id =>
              if id < MGMTD_BE_CLIENT_ID_MAX then setSubscrAllBits info id else info)
            subscrInfoZero⟩)

/-- The running map `mgmt_xpath_map` after startup. -/
def mgmt_xpath_map : List MgmtBeXPathRegexpMap := mgmt_be_xpath_map_init

/-- Root-scope test of `mgmt_be_get_subscr_info_for_xpath` (source
lines 949-952): `strlen(xpath) <= 2 && xpath[0] == '/' &&
(!xpath[1] || xpath[1] == '*')`. -/
def isRootXp (xpath : String) : Bool :=
  xpath.data.length ≤ 2 ∧ getC xpath.data 0 = '/' ∧
    (getC xpath.data 1 = Char.ofNat 0 ∨ getC xpath.data 1 = '*')

/-- The pattern-selection loop of `mgmt_be_get_subscr_info_for_xpath`
(source lines 955-975) in the non-root case, parametrised by the match
function `f`: track the running `max_match` and the `reg_maps` kept so
far; a zero or below-max match is skipped, a higher match resets the
kept list, an equal match appends. -/
def selectLoopWith (f : String → String → Int) (xpath : String) :
    List MgmtBeXPathRegexpMap → Int → List MgmtBeClientSubscrInfo →
    Int × List MgmtBeClientSubscrInfo
  | [], max_match, reg_maps => (max_match, reg_maps)
  | m :: rest, max_match, reg_maps =>
    let mv := f m.xpath_regexp xpath
    if mv = 0 ∨ mv < max_match then
      selectLoopWith f xpath rest max_match reg_maps
    else if max_match < mv then
      selectLoopWith f xpath rest mv [m.be_subscrs]
    else
      selectLoopWith f xpath rest max_match (reg_maps ++ [m.be_subscrs])

/-- The merge loop of `mgmt_be_get_subscr_info_for_xpath` (source
lines 977-988): for each client id subscribed in a kept table, `memcpy`
its record over the result entry. -/
def applyRegMap (acc reg : MgmtBeClientSubscrInfo) : MgmtBeClientSubscrInfo :=
  ⟨(acc.xpath_subscr.zip reg.xpath_subscr).map
     (fun ar => if ar.2.subscribed then ar.2 else ar.1)⟩

/-- Shallow embedding of `mgmt_be_get_subscr_info_for_xpath` (source
lines 934-991) over an explicit map and match function: keep every
registered table when the xpath is root-scope, otherwise the tables of
the patterns selected by the match loop, and fold them into the zeroed
result table. -/
def subscrInfoForXpathWith (f : String → String → Int)
    (maps : List MgmtBeXPathRegexpMap) (xpath : String) : MgmtBeClientSubscrInfo :=
  let kept :=
    if isRootXp xpath then maps.map (·.be_subscrs)
    else (selectLoopWith f xpath maps 0 []).2
  kept.foldl applyRegMap subscrInfoZero

/-- `mgmt_be_get_subscr_info_for_xpath` as called by the program: the
real match function over the running map. -/
def mgmt_be_get_subscr_info_for_xpath (xpath : String) : MgmtBeClientSubscrInfo :=
  subscrInfoForXpathWith mgmt_be_eval_regexp_match mgmt_xpath_map xpath

/-- Per-client OR of two capability records (the union the spec
describes for clients kept from several patterns). -/
def orMergeSubscr (a b : MgmtBeClientSubscr) : MgmtBeClientSubscr :=
  ⟨a.validate_config || b.validate_config,
   a.notify_config || b.notify_config,
   a.own_oper_data || b.own_oper_data⟩

/-- Pointwise OR of two subscriber tables. -/
def orMergeInfo (a b : MgmtBeClientSubscrInfo) : MgmtBeClientSubscrInfo :=
  ⟨(a.xpath_subscr.zip b.xpath_subscr).map (fun p => orMergeSubscr p.1 p.2)⟩

/-- OR-union of a list of subscriber tables, starting from the zeroed
table: the spec-side union of subscriber records. -/
def orUnion (l : List MgmtBeClientSubscrInfo) : MgmtBeClientSubscrInfo :=
  l.foldl orMergeInfo subscrInfoZero

/-- The maximum match length any registered pattern achieves on an
xpath (0 when no pattern matches). -/
def specMaxMatch (maps : List MgmtBeXPathRegexpMap) (xpath : String) : Int :=
  maps.foldl (fun acc m => max acc (mgmt_be_eval_regexp_match m.xpath_regexp xpath)) 0

/-- The subscriber table every entry of the running map carries:
staticd with all three capability bits. -/
def staticdInfo : MgmtBeClientSubscrInfo := ⟨[⟨true, true, true⟩]⟩

/-- Write flow-control state of one adapter: the `WRITES_OFF` flag and
the armed/cleared state of the write event and the `WRITES_ON` timer. -/
structure WAdapterSt where
  writes_off : Bool
  conn_write_ev : Bool
  conn_writes_on : Bool
  deriving Repr, DecidableEq

/-- Shallow embedding of `mgmt_be_adapter_sched_msg_write` (source
lines 490-495): arm the write event unless `WRITES_OFF` is set. -/
def mgmt_be_adapter_sched_msg_write (a : WAdapterSt) : WAdapterSt :=
  if ¬(a.writes_off = true) then { a with conn_write_ev := true } else a

/-- Shallow embedding of `mgmt_be_adapter_writes_on` (source lines
497-503): clear `WRITES_OFF` and schedule a write. -/
def mgmt_be_adapter_writes_on (a : WAdapterSt) : WAdapterSt :=
  mgmt_be_adapter_sched_msg_write { a with writes_off := false }

/-- Shallow embedding of `mgmt_be_adapter_writes_off` (source lines
505-510): set `WRITES_OFF`. -/
def mgmt_be_adapter_writes_off (a : WAdapterSt) : WAdapterSt :=
  { a with writes_off := true }

/-- The framer write results `enum mgmt_msg_wsched`. -/
inductive MgmtMsgWSched where
  | MSW_SCHED_NONE
  | MSW_SCHED_STREAM
  | MSW_DISCONNECT
  | MSW_SCHED_WRITES_OFF
  deriving Repr, DecidableEq

/-- Shallow embedding of the `mgmt_be_adapter_write` event handler
(source lines 643-659) restricted to the flag/event state: the armed
write event has just fired (cleared by the event loop); on `STREAM`
re-arm the write, on `WRITES_OFF` set the flag and arm the `WRITES_ON`
timer, otherwise leave the flag/event state alone (the `DISCONNECT`
branch touches neither the flag nor the events). -/
def mgmt_be_adapter_write (rv : MgmtMsgWSched) (a : WAdapterSt) : WAdapterSt :=
  match rv with
  | MgmtMsgWSched.MSW_SCHED_STREAM => { a with conn_write_ev := true }
  | MgmtMsgWSched.MSW_DISCONNECT => a
  | MgmtMsgWSched.MSW_SCHED_WRITES_OFF =>
      { mgmt_be_adapter_writes_off a with conn_writes_on := true }
  | MgmtMsgWSched.MSW_SCHED_NONE => a

/-- Shallow embedding of `mgmt_be_adapter_resume_writes` (source lines
661-669): the `WRITES_ON` timer handler. -/
def mgmt_be_adapter_resume_writes (a : WAdapterSt) : WAdapterSt :=
  mgmt_be_adapter_writes_on a

/-- One event-loop step of the write flow-control machine: a send
request schedules a write, the write event fires only while armed (the
event loop clears it as it fires), and the `WRITES_ON` timer fires
only while armed. -/
inductive WStep : WAdapterSt → WAdapterSt → Prop where
  | send (a : WAdapterSt) : WStep a (mgmt_be_adapter_sched_msg_write a)
  | fire_write (a : WAdapterSt) (rv : MgmtMsgWSched) (h : a.conn_write_ev = true) :
      WStep a (mgmt_be_adapter_write rv { a with conn_write_ev := false })
  | fire_writes_on (a : WAdapterSt) (h : a.conn_writes_on = true) :
      WStep a (mgmt_be_adapter_resume_writes { a with conn_writes_on := false })

/-- States reachable from a fresh adapter (flag clear, no events armed). -/
inductive WReachable : WAdapterSt → Prop where
  | init : WReachable ⟨false, false, false⟩
  | step {a b : WAdapterSt} : WReachable a → WStep a b → WReachable b

/-- The outbound messages built by the transaction fan-out surface. -/
inductive BeMessage where
  | txnReq (txn_id : Nat) (create : Bool)
  | cfgDataReq (txn_id : Nat) (batch_id : Nat) (num_reqs : Nat) (end_of_data : Bool)
  | cfgApplyReq (txn_id : Nat)
  deriving Repr, DecidableEq

/-- Modelled from the spec: the serializer's packed byte size of an
encoded message (`mgmtd__be_message__get_packed_size`, delegated to
the framer/protobuf layer, not under `src/`): some byte count. -/
def mgmtd__be_message__get_packed_size : BeMessage → Nat
  | BeMessage.txnReq _ _ => 4
  | BeMessage.cfgDataReq _ _ n _ => 8 + n
  | BeMessage.cfgApplyReq _ => 2

/-- The per-connection framer state: the outbound message queue. -/
structure MgmtMsgState where
  outq : List BeMessage
  deriving Repr, DecidableEq

/-- The fields of an adapter the send surface reads and writes. -/
structure BeSendAdapter where
  conn_fd : Int
  mstate : MgmtMsgState
  deriving Repr, DecidableEq

/-- Modelled from the spec: `mgmt_msg_send_msg` (framer, not under
`src/`) appends the encoded message to the outbound queue and returns
the bytes written. -/
def mgmt_msg_send_msg (m : MgmtMsgState) (msg : BeMessage) : Int × MgmtMsgState :=
  ((mgmtd__be_message__get_packed_size msg : Int), ⟨m.outq ++ [msg]⟩)

/-- Shallow embedding of `mgmt_be_adapter_send_msg` (source lines
512-527): refuse with -1 on a closed connection, otherwise enqueue via
the framer and return its byte count. -/
def mgmt_be_adapter_send_msg (adapter : BeSendAdapter) (msg : BeMessage) :
    Int × BeSendAdapter :=
  if adapter.conn_fd = -1 then (-1, adapter)
  else
    let r := mgmt_msg_send_msg adapter.mstate msg
    (r.1, { adapter with mstate := r.2 })

/-- Shallow embedding of `mgmt_be_send_txn_req` (source lines 529-548). -/
def mgmt_be_send_txn_req (adapter : BeSendAdapter) (txn_id : Nat) (create : Bool) :
    Int × BeSendAdapter :=
  mgmt_be_adapter_send_msg adapter (BeMessage.txnReq txn_id create)

/-- Shallow embedding of `mgmt_be_send_cfgdata_create_req` (source
lines 550-576). -/
def mgmt_be_send_cfgdata_create_req (adapter : BeSendAdapter) (txn_id batch_id : Nat)
    (num_reqs : Nat) (end_of_data : Bool) : Int × BeSendAdapter :=
  mgmt_be_adapter_send_msg adapter (BeMessage.cfgDataReq txn_id batch_id num_reqs end_of_data)

/-- Shallow embedding of `mgmt_be_send_cfgapply_req` (source lines
578-596). -/
def mgmt_be_send_cfgapply_req (adapter : BeSendAdapter) (txn_id : Nat) :
    Int × BeSendAdapter :=
  mgmt_be_adapter_send_msg adapter (BeMessage.cfgApplyReq txn_id)

/-- Shallow embedding of `mgmt_be_create_txn` (source lines 901-905). -/
def mgmt_be_create_txn (adapter : BeSendAdapter) (txn_id : Nat) : Int × BeSendAdapter :=
  mgmt_be_send_txn_req adapter txn_id true

/-- Shallow embedding of `mgmt_be_destroy_txn` (source lines 907-911). -/
def mgmt_be_destroy_txn (adapter : BeSendAdapter) (txn_id : Nat) : Int × BeSendAdapter :=
  mgmt_be_send_txn_req adapter txn_id false

/-- The `struct mgmt_be_cfgreq` argument: its request count (the
request array itself is opaque to the adapter). -/
structure MgmtBeCfgReq where
  num_reqs : Nat
  deriving Repr, DecidableEq

/-- Shallow embedding of `mgmt_be_send_cfg_data_create_req` (source
lines 913-921). -/
def mgmt_be_send_cfg_data_create_req (adapter : BeSendAdapter) (txn_id batch_id : Nat)
    (cfg_req : MgmtBeCfgReq) (end_of_data : Bool) : Int × BeSendAdapter :=
  mgmt_be_send_cfgdata_create_req adapter txn_id batch_id cfg_req.num_reqs end_of_data

/-- Shallow embedding of `mgmt_be_send_cfg_apply_req` (source lines
923-928). -/
def mgmt_be_send_cfg_apply_req (adapter : BeSendAdapter) (txn_id : Nat) :
    Int × BeSendAdapter :=
  mgmt_be_send_cfgapply_req adapter txn_id

/-- One config change produced by the initial sync walk, keyed by
xpath and carrying its sequence number. -/
structure NbConfigChange where
  xpath : String
  seq : Nat
  deriving Repr, DecidableEq

/-- The fields of an adapter the config-sync driver reads and writes. -/
structure CfgAdapter where
  id : Nat
  cfg_chgs : List NbConfigChange
  deriving Repr, DecidableEq

/-- Modelled from the spec: `nb_config_diff_created` (northbound
library, not under `src/`) emits a "created" change keyed by the
node's xpath, carrying the next sequence number, which it increments. -/
def nb_config_diff_created (xpath : String) (parms : List NbConfigChange × Nat) :
    List NbConfigChange × Nat :=
  (parms.1 ++ [⟨xpath, parms.2⟩], parms.2 + 1)

/-- Shallow embedding of `mgmt_be_iter_and_get_cfg` (source lines
671-696): resolve the node's xpath, return unchanged unless the
walking adapter's own client id is subscribed, otherwise emit the
created change. -/
def mgmt_be_iter_and_get_cfg (adapter_id : Nat) (parms : List NbConfigChange × Nat)
    (xpath : String) : List NbConfigChange × Nat :=
  let subscr := mgmt_be_get_subscr_info_for_xpath xpath
  if ¬((subscr.xpath_subscr.getD adapter_id subscrZero).subscribed = true) then parms
  else nb_config_diff_created xpath parms

/-- Modelled from the spec: `mgmt_ds_iter_data` (datastore, not under
`src/`) walks the tree from the base xpath `/` and invokes the
callback once per node, in order; the datastore is modelled as the
list of node xpaths the walk visits. -/
def mgmt_ds_iter_data (ds : List String) (parms : List NbConfigChange × Nat)
    (f : List NbConfigChange × Nat → String → List NbConfigChange × Nat) :
    List NbConfigChange × Nat :=
  ds.foldl f parms

/-- Shallow embedding of `mgmt_be_get_adapter_config` (source lines
878-899): when the adapter's change set is empty, walk the datastore
from `/` collecting changes into it; in all cases hand back the
adapter's change set. -/
def mgmt_be_get_adapter_config (adapter : CfgAdapter) (ds : List String) :
    List NbConfigChange × CfgAdapter :=
  if adapter.cfg_chgs.isEmpty = true then
    let parms := mgmt_ds_iter_data ds ([], 0) (mgmt_be_iter_and_get_cfg adapter.id)
    (parms.1, { adapter with cfg_chgs := parms.1 })
  else (adapter.cfg_chgs, adapter)

/-- The lifecycle-relevant fields of `struct mgmt_be_client_adapter`. -/
structure BeAdapter where
  conn_fd : Int
  name : String
  id : Nat
  refcount : Nat
  conn_init_ev : Bool
  conn_read_ev : Bool
  deriving Repr, DecidableEq

/-- Global adapter-registry state: the `mgmt_be_adapters` list (keys in
list order), the allocation store (key to adapter record), the
`mgmt_be_adapters_by_id` array together with a log of every index
write performed on it (so out-of-bounds writes are observable), the
log of `mgmt_txn_notify_be_adapter_conn` calls, the freed keys, and
the next fresh allocation key. -/
structure BeState where
  adapters : List Nat
  store : List (Nat × BeAdapter)
  byId : List (Option Nat)
  byIdWrites : List (Nat × Option Nat)
  txnNotifs : List (Nat × Bool)
  freed : List Nat
  nextKey : Nat
  deriving Repr, DecidableEq

/-- Look up a key in an adapter store. -/
def findA (l : List (Nat × BeAdapter)) (k : Nat) : Option BeAdapter :=
  (l.find? (fun e => decide (e.1 = k))).map (fun e => e.2)

/-- Rewrite the entry of a key in an adapter store. -/
def updK (k : Nat) (f : BeAdapter → BeAdapter) (e : Nat × BeAdapter) : Nat × BeAdapter :=
  if e.1 = k then (k, f e.2) else e

/-- Read the adapter record at a key. -/
def getAdapter (s : BeState) (k : Nat) : Option BeAdapter :=
  findA s.store k

/-- Update the adapter record at a key in place. -/
def updAdapter (s : BeState) (k : Nat) (f : BeAdapter → BeAdapter) : BeState :=
  { s with store := s.store.map (updK k f) }

/-- Perform the array write `mgmt_be_adapters_by_id[i] = v`: the write
is always logged, and lands in the array only when `i` is inside its
bounds (an index `≥ MGMTD_BE_CLIENT_ID_MAX` is an out-of-bounds write
in the C). -/
def byIdWrite (s : BeState) (i : Nat) (v : Option Nat) : BeState :=
  { s with byIdWrites := s.byIdWrites ++ [(i, v)],
           byId := if i < MGMTD_BE_CLIENT_ID_MAX then s.byId.set i v else s.byId }

/-- Shallow embedding of `mgmt_be_adapter_unlock` (source lines
785-802): drop one reference; at zero, delete from the registry, clear
the events, destroy the framer state and free the memory. -/
def mgmt_be_adapter_unlock (s : BeState) (k : Nat) : BeState :=
  match getAdapter s k with
  | none => s
  | some a =>
    if a.refcount - 1 = 0 then
      { s with adapters := s.adapters.erase k,
               store := s.store.filter (fun e => ¬(e.1 = k)),
               freed := s.freed ++ [k] }
    else updAdapter s k (fun a0 => { a0 with refcount := a0.refcount - 1 })

/-- Shallow embedding of `mgmt_be_adapter_disconnect` (source lines
322-342): close the fd if open, notify TXN of the disconnect, clear
the by-id entry when the id is valid, delete from the registry, and
drop one reference. -/
def mgmt_be_adapter_disconnect (s : BeState) (k : Nat) : BeState :=
  match getAdapter s k with
  | none => s
  | some a =>
    let s1 := updAdapter s k
      (fun a0 => if 0 ≤ a0.conn_fd then { a0 with conn_fd := -1 } else a0)
    let s2 := { s1 with txnNotifs := s1.txnNotifs ++ [(k, false)] }
    let s3 :=
      if a.id < MGMTD_BE_CLIENT_ID_MAX then
        updAdapter (byIdWrite s2 a.id none) k
          (fun a0 => { a0 with id := MGMTD_BE_CLIENT_ID_MAX })
      else s2
    let s4 := { s3 with adapters := s3.adapters.erase k }
    mgmt_be_adapter_unlock s4 k

/-- Shallow embedding of `mgmt_be_adapter_cleanup_old_conn` (source
lines 344-361): disconnect every other registry member carrying the
same name as the (re)subscribing adapter. -/
def mgmt_be_adapter_cleanup_old_conn (s : BeState) (k : Nat) (name : String) : BeState :=
  (s.adapters.filter (fun o =>
      decide (¬(o = k) ∧ (getAdapter s o).map (fun oa => oa.name) = some name))).foldl
    (fun st o => mgmt_be_adapter_disconnect st o) s

/-- Modelled from the spec: `mgmt_be_client_name2id` (client library
header, not under `src/`): known client names map bijectively onto
their ids and every other name maps to `MGMTD_BE_CLIENT_ID_MAX`. -/
def mgmt_be_client_name2id (name : String) : Nat :=
  if name = "staticd" then MGMTD_BE_CLIENT_ID_STATICD else MGMTD_BE_CLIENT_ID_MAX

/-- Shallow embedding of the `SUBSCR_REQ` arm of
`mgmt_be_adapter_handle_msg` (source lines 372-395): on a non-empty
client name, copy it into the adapter, resolve the id, disconnect when
it does not resolve, and then — with no early return in the C — still
execute `mgmt_be_adapters_by_id[adapter->id] = adapter` (the id value
read back being the one just stored) and sweep same-named older
connections. -/
def mgmt_be_adapter_handle_subscr_req (s : BeState) (k : Nat) (client_name : String) :
    BeState :=
  if client_name.length ≠ 0 then
    let s1 := updAdapter s k (fun a0 => { a0 with name := client_name })
    let new_id := mgmt_be_client_name2id client_name
    let s2 := updAdapter s1 k (fun a0 => { a0 with id := new_id })
    let s3 :=
      if MGMTD_BE_CLIENT_ID_MAX ≤ new_id then mgmt_be_adapter_disconnect s2 k else s2
    let s4 := byIdWrite s3 new_id (some k)
    mgmt_be_adapter_cleanup_old_conn s4 k client_name
  else s

/-- Shallow embedding of `mgmt_be_find_adapter_by_fd` (source lines
121-132): linear scan of the registry for the connection fd. -/
def mgmt_be_find_adapter_by_fd (s : BeState) (conn_fd : Int) : Option Nat :=
  s.adapters.find? (fun k => decide ((getAdapter s k).map (fun a => a.conn_fd) = some conn_fd))

/-- Shallow embedding of `mgmt_be_create_adapter` (source lines
824-863): reuse the live adapter with this fd when one exists,
otherwise allocate a fresh one (name `Unknown-FD-<fd>`, id `MAX`, one
reference, read event armed, appended to the registry); in all cases
arm the `CONN_INIT` event of the returned adapter. -/
def mgmt_be_create_adapter (s : BeState) (conn_fd : Int) : Nat × BeState :=
  let ks :=
    match mgmt_be_find_adapter_by_fd s conn_fd with
    | some k => (k, s)
    | none =>
      let a : BeAdapter :=
        { conn_fd := conn_fd, name := "Unknown-FD-" ++ toString conn_fd,
          id := MGMTD_BE_CLIENT_ID_MAX, refcount := 1,
          conn_init_ev := false, conn_read_ev := true }
      (s.nextKey, { s with store := s.store ++ [(s.nextKey, a)],
                           adapters := s.adapters ++ [s.nextKey],
                           nextKey := s.nextKey + 1 })
  (ks.1, updAdapter ks.2 ks.1 (fun a0 => { a0 with conn_init_ev := true }))

/-- Every live (registered) adapter owns a distinct connection fd. -/
def AtMostOnePerFd (s : BeState) : Prop :=
  s.adapters.Pairwise (fun k1 k2 =>
    (getAdapter s k1).map (fun a => a.conn_fd) ≠ (getAdapter s k2).map (fun a => a.conn_fd))

/-- A freshly accepted, still unidentified adapter on fd 5, alone in
the registry, holding the registry reference. -/
def subscrReqInitState : BeState :=
  { adapters := [0],
    store := [(0, ⟨5, "Unknown-FD-5", MGMTD_BE_CLIENT_ID_MAX, 1, false, true⟩)],
    byId := [none], byIdWrites := [], txnNotifs := [], freed := [], nextKey := 1 }

/-- An identified staticd adapter on fd 5 holding two references
(registry plus one armed event), indexed in the by-id table. -/
def doubleDisconnectState : BeState :=
  { adapters := [0],
    store := [(0, ⟨5, "staticd", MGMTD_BE_CLIENT_ID_STATICD, 2, false, true⟩)],
    byId := [some 0], byIdWrites := [], txnNotifs := [], freed := [], nextKey := 1 }

/-- An already-disconnected staticd adapter (fd closed, id cleared, out
of the registry) still holding two references. -/
def c5WitnessState : BeState :=
  { adapters := [],
    store := [(0, ⟨-1, "staticd", MGMTD_BE_CLIENT_ID_MAX, 2, false, false⟩)],
    byId := [none], byIdWrites := [], txnNotifs := [], freed := [], nextKey := 1 }

theorem foldl_maxf_le_iff {A : Type} (vf : A → Int) (l : List A) (a c : Int) :
    l.foldl (fun acc m => max acc (vf m)) a ≤ c ↔ a ≤ c ∧ ∀ m ∈ l, vf m ≤ c := by
  induction l generalizing a with
  | nil => simp
  | cons x xs ih =>
    simp only [List.foldl_cons, ih, max_le_iff, List.mem_cons]
    constructor
    · rintro ⟨⟨h1, h2⟩, h3⟩
      exact ⟨h1, fun v hv => hv.elim (fun hx => hx ▸ h2) (h3 v)⟩
    · rintro ⟨h1, h2⟩
      exact ⟨⟨h1, h2 x (Or.inl rfl)⟩, fun v hv => h2 v (Or.inr hv)⟩

theorem le_foldl_maxf {A : Type} (vf : A → Int) (l : List A) (a : Int) :
    a ≤ l.foldl (fun acc m => max acc (vf m)) a :=
  ((foldl_maxf_le_iff vf l a _).mp le_rfl).1

theorem foldl_maxf_eq_self_iff {A : Type} (vf : A → Int) (l : List A) (a : Int) :
    l.foldl (fun acc m => max acc (vf m)) a = a ↔ ∀ m ∈ l, vf m ≤ a := by
  constructor
  · intro h
    exact fun v hv => ((foldl_maxf_le_iff vf l a a).mp h.le).2 v hv
  · intro h
    exact le_antisymm ((foldl_maxf_le_iff vf l a a).mpr ⟨le_rfl, h⟩)
      (le_foldl_maxf vf l a)

theorem selectLoopWith_fst (f : String → String → Int) (x : String)
    (hf : ∀ p y, 0 ≤ f p y) :
    ∀ (maps : List MgmtBeXPathRegexpMap) (mx : Int) (kept : List MgmtBeClientSubscrInfo),
      0 ≤ mx →
      (selectLoopWith f x maps mx kept).1 =
        maps.foldl (fun acc m => max acc (f m.xpath_regexp x)) mx := by
  intro maps
  induction maps with
  | nil => intro mx kept _; rfl
  | cons m rest ih =>
    intro mx kept hmx
    have hv := hf m.xpath_regexp x
    simp only [selectLoopWith, List.foldl_cons]
    split_ifs with h1 h2
    · rw [ih mx kept hmx]
      have : max mx (f m.xpath_regexp x) = mx := by
        rcases h1 with h | h
        · rw [h]; exact max_eq_left hmx
        · exact max_eq_left h.le
      rw [this]
    · rw [ih (f m.xpath_regexp x) _ hv]
      rw [max_eq_right h2.le]
    · rw [ih mx _ hmx]
      have : max mx (f m.xpath_regexp x) = mx := max_eq_left (not_lt.mp h2)
      rw [this]


theorem selectLoopWith_snd (f : String → String → Int) (x : String)
    (hf : ∀ p y, 0 ≤ f p y) :
    ∀ (maps : List MgmtBeXPathRegexpMap) (mx : Int) (kept : List MgmtBeClientSubscrInfo),
      0 ≤ mx →
      (selectLoopWith f x maps mx kept).2 =
        (if ∀ m ∈ maps, f m.xpath_regexp x ≤ mx then kept else []) ++
        (if maps.foldl (fun acc m => max acc (f m.xpath_regexp x)) mx = 0 then []
         else (maps.filter (fun m =>
                decide (f m.xpath_regexp x =
                  maps.foldl (fun acc m => max acc (f m.xpath_regexp x)) mx))).map
               (fun m => m.be_subscrs)) := by
  intro maps
  induction maps with
  | nil =>
    intro mx kept _
    simp [selectLoopWith]
  | cons m rest ih =>
    intro mx kept hmx
    have hv : 0 ≤ f m.xpath_regexp x := hf m.xpath_regexp x
    by_cases h1 : f m.xpath_regexp x = 0 ∨ f m.xpath_regexp x < mx
    · -- skipped pattern: zero match or below the running max
      have hstep : selectLoopWith f x (m :: rest) mx kept =
          selectLoopWith f x rest mx kept := by
        simp [selectLoopWith, h1]
      have hvle : f m.xpath_regexp x ≤ mx := by
        rcases h1 with h | h
        · omega
        · omega
      have hfold : (m :: rest).foldl (fun acc mm => max acc (f mm.xpath_regexp x)) mx =
          rest.foldl (fun acc mm => max acc (f mm.xpath_regexp x)) mx := by
        rw [List.foldl_cons, max_eq_left hvle]
      have hfr := le_foldl_maxf (fun mm => f mm.xpath_regexp x) rest mx
      rw [hstep, ih mx kept hmx, hfold]
      by_cases hz : rest.foldl (fun acc mm => max acc (f mm.xpath_regexp x)) mx = 0
      · simp [hz, List.forall_mem_cons, hvle]
      · have hne : ¬(f m.xpath_regexp x =
            rest.foldl (fun acc mm => max acc (f mm.xpath_regexp x)) mx) := by
          rcases h1 with h | h
          · omega
          · omega
        simp [hz, List.forall_mem_cons, hvle, List.filter_cons, hne]
    · by_cases h2 : mx < f m.xpath_regexp x
      · -- new maximum: reset the kept list to this pattern alone
        have hstep : selectLoopWith f x (m :: rest) mx kept =
            selectLoopWith f x rest (f m.xpath_regexp x) [m.be_subscrs] := by
          simp [selectLoopWith, h1, h2]
        have hfold : (m :: rest).foldl (fun acc mm => max acc (f mm.xpath_regexp x)) mx =
            rest.foldl (fun acc mm => max acc (f mm.xpath_regexp x)) (f m.xpath_regexp x) := by
          rw [List.foldl_cons, max_eq_right h2.le]
        have hfr := le_foldl_maxf (fun mm => f mm.xpath_regexp x) rest (f m.xpath_regexp x)
        have hfm_ne : ¬(rest.foldl (fun acc mm => max acc (f mm.xpath_regexp x))
            (f m.xpath_regexp x) = 0) := by omega
        have hnotall : ¬(∀ mm ∈ m :: rest, f mm.xpath_regexp x ≤ mx) := by
          intro hc
          exact absurd (hc m (List.mem_cons_self m rest)) (not_le.mpr h2)
        rw [hstep, ih (f m.xpath_regexp x) [m.be_subscrs] hv, hfold, if_neg hnotall]
        by_cases hall : ∀ mm ∈ rest, f mm.xpath_regexp x ≤ f m.xpath_regexp x
        · have hfm_eq : rest.foldl (fun acc mm => max acc (f mm.xpath_regexp x))
              (f m.xpath_regexp x) = f m.xpath_regexp x :=
            (foldl_maxf_eq_self_iff (fun mm => f mm.xpath_regexp x) rest _).mpr hall
          have hvnz2 : ¬(f m.xpath_regexp x = 0) := by omega
          rw [hfm_eq, if_pos hall, if_neg hvnz2, if_neg hvnz2]
          simp [List.filter_cons]
        · have hfm_gt : f m.xpath_regexp x <
              rest.foldl (fun acc mm => max acc (f mm.xpath_regexp x)) (f m.xpath_regexp x) := by
            rcases lt_or_eq_of_le hfr with h | h
            · exact h
            · exact absurd
                ((foldl_maxf_eq_self_iff (fun mm => f mm.xpath_regexp x) rest _).mp h.symm)
                hall
          have hne : ¬(f m.xpath_regexp x =
              rest.foldl (fun acc mm => max acc (f mm.xpath_regexp x)) (f m.xpath_regexp x)) := by
            omega
          simp [hall, hfm_ne, List.filter_cons, hne]
      · -- tied with the running max (and nonzero): append to the kept list
        have hveq : f m.xpath_regexp x = mx :=
          le_antisymm (not_lt.mp h2) (not_lt.mp (not_or.mp h1).2)
        have hvnz : ¬(f m.xpath_regexp x = 0) := (not_or.mp h1).1
        have hstep : selectLoopWith f x (m :: rest) mx kept =
            selectLoopWith f x rest mx (kept ++ [m.be_subscrs]) := by
          simp [selectLoopWith, h1, h2]
        have hfold : (m :: rest).foldl (fun acc mm => max acc (f mm.xpath_regexp x)) mx =
            rest.foldl (fun acc mm => max acc (f mm.xpath_regexp x)) mx := by
          rw [List.foldl_cons, hveq, max_self]
        have hfr := le_foldl_maxf (fun mm => f mm.xpath_regexp x) rest mx
        have hfm_ne : ¬(rest.foldl (fun acc mm => max acc (f mm.xpath_regexp x)) mx = 0) := by
          omega
        rw [hstep, ih mx (kept ++ [m.be_subscrs]) hmx, hfold]
        by_cases hall : ∀ mm ∈ rest, f mm.xpath_regexp x ≤ mx
        · have hfm_eq : rest.foldl (fun acc mm => max acc (f mm.xpath_regexp x)) mx = mx :=
            (foldl_maxf_eq_self_iff (fun mm => f mm.xpath_regexp x) rest mx).mpr hall
          have hallcons : ∀ mm ∈ m :: rest, f mm.xpath_regexp x ≤ mx := by
            intro mm hmm
            rcases List.mem_cons.mp hmm with h | h
            · rw [h]; exact hveq.le
            · exact hall mm h
          have hmxnz : ¬(mx = 0) := by omega
          rw [hfm_eq, if_pos hall, if_pos hallcons, if_neg hmxnz, if_neg hmxnz]
          simp [List.filter_cons, hveq]
        · have hfm_gt : mx < rest.foldl (fun acc mm => max acc (f mm.xpath_regexp x)) mx := by
            rcases lt_or_eq_of_le hfr with h | h
            · exact h
            · exact absurd
                ((foldl_maxf_eq_self_iff (fun mm => f mm.xpath_regexp x) rest mx).mp h.symm)
                hall
          have hne : ¬(f m.xpath_regexp x =
              rest.foldl (fun acc mm => max acc (f mm.xpath_regexp x)) mx) := by
            omega
          have hnotallcons : ¬(∀ mm ∈ m :: rest, f mm.xpath_regexp x ≤ mx) := by
            intro hc
            exact hall (fun mm hmm => hc mm (List.mem_cons_of_mem m hmm))
          simp [hall, hnotallcons, hfm_ne, List.filter_cons, hne]

theorem matchStepEnter_match_len (R X : List Char) (st : MatchSt) :
    (matchStepEnter R X st).match_len = st.match_len := by
  unfold matchStepEnter
  dsimp only
  split_ifs <;> rfl

theorem matchStepExit_match_len (R X : List Char) (rl xl : Nat) (st : MatchSt) :
    (matchStepExit R X rl xl st).match_len = st.match_len := by
  unfold matchStepExit
  dsimp only
  split_ifs <;> rfl

theorem matchStepTail_match_len_le (R X : List Char) (st : MatchSt) :
    st.match_len ≤ (matchStepTail R X st).match_len := by
  unfold matchStepTail
  dsimp only
  split_ifs <;> simp

theorem matchStep_match_len_le (R X : List Char) (rl xl : Nat) (st : MatchSt) :
    st.match_len ≤ (matchStep R X rl xl st).match_len := by
  unfold matchStep
  calc st.match_len
      = (matchStepEnter R X st).match_len := (matchStepEnter_match_len R X st).symm
    _ = (matchStepExit R X rl xl (matchStepEnter R X st)).match_len :=
        (matchStepExit_match_len R X rl xl (matchStepEnter R X st)).symm
    _ ≤ _ := matchStepTail_match_len_le R X _

theorem matchLoop_match_len_le (R X : List Char) (rl xl : Nat) :
    ∀ (fuel : Nat) (st : MatchSt),
      st.match_len ≤ (matchLoop R X rl xl fuel st).match_len := by
  intro fuel
  induction fuel with
  | zero => intro st; exact le_rfl
  | succ n ih =>
    intro st
    rw [matchLoop]
    split
    · exact le_trans (matchStep_match_len_le R X rl xl st) (ih _)
    · exact le_rfl

theorem mgmt_be_eval_regexp_match_nonneg (p x : String) :
    0 ≤ mgmt_be_eval_regexp_match p x := by
  unfold mgmt_be_eval_regexp_match
  dsimp only
  have h0 := matchLoop_match_len_le p.data x.data (trimmedLen p.data) (trimmedLen x.data)
    (trimmedLen p.data + trimmedLen x.data) matchSt0
  have hz : matchSt0.match_len = 0 := rfl
  split_ifs <;> omega

theorem applyRegMap_fold_staticd :
    ∀ (l : List MgmtBeClientSubscrInfo), (∀ y ∈ l, y = staticdInfo) →
      l.foldl applyRegMap staticdInfo = staticdInfo ∧
      l.foldl orMergeInfo staticdInfo = staticdInfo := by
  intro l
  induction l with
  | nil => intro _; exact ⟨rfl, rfl⟩
  | cons y rest ih =>
    intro h
    have hy : y = staticdInfo := h y (List.mem_cons_self y rest)
    have hrest := ih (fun z hz => h z (List.mem_cons_of_mem y hz))
    subst hy
    have h1 : applyRegMap staticdInfo staticdInfo = staticdInfo := by decide
    have h2 : orMergeInfo staticdInfo staticdInfo = staticdInfo := by decide
    simpa [h1, h2] using hrest

theorem foldl_applyRegMap_eq_orUnion :
    ∀ (l : List MgmtBeClientSubscrInfo), (∀ y ∈ l, y = staticdInfo) →
      l.foldl applyRegMap subscrInfoZero = orUnion l := by
  intro l h
  cases l with
  | nil => rfl
  | cons y rest =>
    have hy : y = staticdInfo := h y (List.mem_cons_self y rest)
    have hrest : ∀ z ∈ rest, z = staticdInfo := fun z hz => h z (List.mem_cons_of_mem y hz)
    subst hy
    have h1 : applyRegMap subscrInfoZero staticdInfo = staticdInfo := by decide
    have h2 : orMergeInfo subscrInfoZero staticdInfo = staticdInfo := by decide
    unfold orUnion
    rw [List.foldl_cons, List.foldl_cons, h1, h2,
        (applyRegMap_fold_staticd rest hrest).1, (applyRegMap_fold_staticd rest hrest).2]

theorem mgmt_xpath_map_subscrs_staticd :
    ∀ m ∈ mgmt_xpath_map, m.be_subscrs = staticdInfo := by
  decide

/-- C1: for every xpath that is not root-scope,
`mgmt_be_get_subscr_info_for_xpath` keeps exactly the registered
patterns achieving the maximum positive match length (none when no
pattern matches positively, all tied patterns on a tie), and the
resulting subscriber table is the per-client, per-capability OR-union
of the kept patterns' subscriber records. -/
theorem C1_resolve_keeps_maximal_and_or_merges (xpath : String)
    (h : isRootXp xpath = false) :
    (selectLoopWith mgmt_be_eval_regexp_match xpath mgmt_xpath_map 0 []).1 =
        specMaxMatch mgmt_xpath_map xpath ∧
    (selectLoopWith mgmt_be_eval_regexp_match xpath mgmt_xpath_map 0 []).2 =
        (if specMaxMatch mgmt_xpath_map xpath = 0 then []
         else (mgmt_xpath_map.filter (fun m =>
                decide (mgmt_be_eval_regexp_match m.xpath_regexp xpath =
                        specMaxMatch mgmt_xpath_map xpath))).map
               (fun m => m.be_subscrs)) ∧
    mgmt_be_get_subscr_info_for_xpath xpath =
        orUnion ((selectLoopWith mgmt_be_eval_regexp_match xpath mgmt_xpath_map 0 []).2) := by
  have hf : ∀ p y, 0 ≤ mgmt_be_eval_regexp_match p y := mgmt_be_eval_regexp_match_nonneg
  have h1 := selectLoopWith_fst mgmt_be_eval_regexp_match xpath hf mgmt_xpath_map 0 [] le_rfl
  have h2 := selectLoopWith_snd mgmt_be_eval_regexp_match xpath hf mgmt_xpath_map 0 [] le_rfl
  have hkeep : (selectLoopWith mgmt_be_eval_regexp_match xpath mgmt_xpath_map 0 []).2 =
      (if specMaxMatch mgmt_xpath_map xpath = 0 then []
       else (mgmt_xpath_map.filter (fun m =>
              decide (mgmt_be_eval_regexp_match m.xpath_regexp xpath =
                      specMaxMatch mgmt_xpath_map xpath))).map
             (fun m => m.be_subscrs)) := by
    rw [h2]
    simp [specMaxMatch]
  refine ⟨h1, hkeep, ?_⟩
  have hmem : ∀ y ∈ (selectLoopWith mgmt_be_eval_regexp_match xpath mgmt_xpath_map 0 []).2,
      y = staticdInfo := by
    rw [hkeep]
    split_ifs with hz
    · intro y hy; exact absurd hy (List.not_mem_nil y)
    · intro y hy
      rcases List.mem_map.mp hy with ⟨m, hm, rfl⟩
      exact mgmt_xpath_map_subscrs_staticd m (List.mem_of_mem_filter hm)
  unfold mgmt_be_get_subscr_info_for_xpath subscrInfoForXpathWith
  rw [h]
  simp only [Bool.false_eq_true, if_false]
  exact foldl_applyRegMap_eq_orUnion _ hmem

/-- Witness for C1 at the concrete non-root xpath `/frr-vrf:lib/x`. -/
theorem C1_resolve_keeps_maximal_and_or_merges_witness :
    isRootXp ("/frr-vrf:lib/x") = false ∧
    mgmt_be_get_subscr_info_for_xpath ("/frr-vrf:lib/x") =
      orUnion ((selectLoopWith mgmt_be_eval_regexp_match ("/frr-vrf:lib/x")
                 mgmt_xpath_map 0 []).2) :=
  ⟨by decide, (C1_resolve_keeps_maximal_and_or_merges ("/frr-vrf:lib/x") (by decide)).2.2⟩

theorem isRootXp_iff (x : String) (hnul : (Char.ofNat 0) ∉ x.data) :
    isRootXp x = true ↔ (x = "/" ∨ x = "/*") := by
  obtain ⟨l⟩ := x
  have hmk : ∀ (t : String), String.mk l = t ↔ l = t.data := by
    intro t
    constructor
    · intro h; rw [← h]
    · intro h; rw [h]
  have hS1 : ("/").data = ['/'] := rfl
  have hS2 : ("/*").data = ['/', '*'] := rfl
  match l, hnul with
  | [], _ =>
    simp [isRootXp, getC, hmk, hS1, hS2]
  | [c], hnul =>
    have h0 : getC [c] 0 = c := rfl
    have h1 : getC [c] 1 = Char.ofNat 0 := rfl
    simp [isRootXp, h0, h1, hmk, hS1, hS2]
  | [c, d], hnul =>
    have h0 : getC [c, d] 0 = c := rfl
    have h1 : getC [c, d] 1 = d := rfl
    have hd : ¬(d = Char.ofNat 0) := by
      intro h
      exact hnul (by simp [h])
    simp [isRootXp, h0, h1, hd, hmk, hS1, hS2]
  | c :: d :: e :: rest, _ =>
    have hlen : ¬((c :: d :: e :: rest).length ≤ 2) := by simp
    constructor
    · intro h
      exfalso
      rw [isRootXp, decide_eq_true_eq] at h
      exact hlen h.1
    · intro h
      exfalso
      rcases h with h | h
      · rw [hmk, hS1] at h; simp at h
      · rw [hmk, hS2] at h; simp at h

/-- C2: the root-scope test of `mgmt_be_get_subscr_info_for_xpath`
accepts exactly the xpaths `/` and `/*`; on those the resolver returns
the union of every registered pattern's subscriber records, and it
does so independently of the match function (no match length is
evaluated). -/
theorem C2_root_scope_matches_all (x : String) (hnul : (Char.ofNat 0) ∉ x.data) :
    (isRootXp x = true ↔ (x = "/" ∨ x = "/*")) ∧
    (isRootXp x = true →
      (∀ f g : String → String → Int,
         subscrInfoForXpathWith f mgmt_xpath_map x =
           subscrInfoForXpathWith g mgmt_xpath_map x) ∧
      mgmt_be_get_subscr_info_for_xpath x =
        orUnion (mgmt_xpath_map.map (fun m => m.be_subscrs))) := by
  refine ⟨isRootXp_iff x hnul, fun h => ⟨?_, ?_⟩⟩
  · intro f g
    unfold subscrInfoForXpathWith
    rw [h]
    simp
  · unfold mgmt_be_get_subscr_info_for_xpath subscrInfoForXpathWith
    rw [h]
    simp only [if_true]
    apply foldl_applyRegMap_eq_orUnion
    intro y hy
    rcases List.mem_map.mp hy with ⟨m, hm, rfl⟩
    exact mgmt_xpath_map_subscrs_staticd m hm

/-- Witness for C2 at the concrete root xpath `/`. -/
theorem C2_root_scope_matches_all_witness :
    (Char.ofNat 0) ∉ ("/").data ∧ isRootXp ("/") = true ∧
    mgmt_be_get_subscr_info_for_xpath ("/") =
      orUnion (mgmt_xpath_map.map (fun m => m.be_subscrs)) :=
  ⟨by decide, by decide,
   ((C2_root_scope_matches_all ("/") (by decide)).2 (by decide)).2⟩

/-- C4: the match function never returns a negative value, and every
registered pattern (carrying its trailing star) matches itself with a
strictly positive length. -/
theorem C4_match_nonneg_and_self_positive :
    (∀ p x : String, 0 ≤ mgmt_be_eval_regexp_match p x) ∧
    (∀ m ∈ mgmt_xpath_map,
       0 < mgmt_be_eval_regexp_match m.xpath_regexp m.xpath_regexp) := by
  refine ⟨mgmt_be_eval_regexp_match_nonneg, ?_⟩
  set_option maxRecDepth 8000 in decide

/-- Witness for C4 at a concrete pattern and instance. -/
theorem C4_match_nonneg_and_self_positive_witness :
    0 ≤ mgmt_be_eval_regexp_match ("/a/b") ("/a/c") ∧
    (⟨"/frr-vrf:lib/*", staticdInfo⟩ : MgmtBeXPathRegexpMap) ∈ mgmt_xpath_map ∧
    0 < mgmt_be_eval_regexp_match ("/frr-vrf:lib/*") ("/frr-vrf:lib/*") :=
  ⟨C4_match_nonneg_and_self_positive.1 ("/a/b") ("/a/c"), by decide,
   C4_match_nonneg_and_self_positive.2 ⟨"/frr-vrf:lib/*", staticdInfo⟩ (by decide)⟩

theorem getC_append_lt (l l2 : List Char) (i : Int) (h : i < (l.length : Int)) :
    getC (l ++ l2) i = getC l i := by
  unfold getC
  split_ifs with h0
  · have hn : i.toNat < l.length := by omega
    exact List.getD_append l l2 (Char.ofNat 0) i.toNat hn
  · rfl

theorem getC_append_self (l : List Char) (c : Char) :
    getC (l ++ [c]) (l.length : Int) = c := by
  unfold getC
  rw [if_pos (by positivity)]
  rw [Int.toNat_natCast]
  rw [List.getD_append_right l [c] (Char.ofNat 0) l.length le_rfl]
  simp

theorem matchStepEnter_indices (R X : List Char) (st : MatchSt) :
    (matchStepEnter R X st).re_indx = st.re_indx ∧
    (matchStepEnter R X st).xp_indx = st.xp_indx := by
  unfold matchStepEnter
  dsimp only
  split_ifs <;> exact ⟨rfl, rfl⟩

theorem matchStepExit_indices_lt (R X : List Char) (rl xl : Nat) (st : MatchSt)
    (hre : st.re_indx < rl) (hxp : st.xp_indx < xl) :
    (matchStepExit R X rl xl st).re_indx < rl ∧
    (matchStepExit R X rl xl st).xp_indx < xl := by
  unfold matchStepExit
  dsimp only
  split_ifs <;> constructor <;> dsimp only <;> omega

theorem matchStepTail_indices_le (R X : List Char) (st : MatchSt) :
    (matchStepTail R X st).re_indx ≤ st.re_indx + 1 ∧
    (matchStepTail R X st).xp_indx ≤ st.xp_indx + 1 := by
  unfold matchStepTail
  dsimp only
  split_ifs <;> constructor <;> dsimp only <;> omega

theorem matchStep_indices_le (R X : List Char) (rl xl : Nat) (st : MatchSt)
    (hre : st.re_indx < rl) (hxp : st.xp_indx < xl) :
    (matchStep R X rl xl st).re_indx ≤ rl ∧
    (matchStep R X rl xl st).xp_indx ≤ xl := by
  unfold matchStep
  have h1 := matchStepEnter_indices R X st
  have h2 := matchStepExit_indices_lt R X rl xl (matchStepEnter R X st)
    (h1.1 ▸ hre) (h1.2 ▸ hxp)
  have h3 := matchStepTail_indices_le R X (matchStepExit R X rl xl (matchStepEnter R X st))
  omega

theorem matchLoop_indices_le (R X : List Char) (rl xl : Nat) :
    ∀ (fuel : Nat) (st : MatchSt), st.re_indx ≤ rl → st.xp_indx ≤ xl →
      (matchLoop R X rl xl fuel st).re_indx ≤ rl ∧
      (matchLoop R X rl xl fuel st).xp_indx ≤ xl := by
  intro fuel
  induction fuel with
  | zero => intro st h1 h2; exact ⟨h1, h2⟩
  | succ n ih =>
    intro st h1 h2
    rw [matchLoop]
    split
    · next h =>
      have hs := matchStep_indices_le R X rl xl st h.2.1 h.2.2
      exact ih _ hs.1 hs.2
    · exact ⟨h1, h2⟩

theorem getC_ge_len (l : List Char) (i : Int) (h : (l.length : Int) ≤ i) :
    getC l i = Char.ofNat 0 := by
  unfold getC
  split_ifs with h0
  · exact List.getD_eq_default l (Char.ofNat 0) (by omega)
  · rfl

theorem matchStepEnter_congr (R1 R2 X1 X2 : List Char) (rl xl : Nat) (st : MatchSt)
    (hR : ∀ i : Int, i < (rl : Int) → getC R1 i = getC R2 i)
    (hX : ∀ i : Int, i < (xl : Int) → getC X1 i = getC X2 i)
    (hre : st.re_indx < rl) (hxp : st.xp_indx < xl) :
    matchStepEnter R1 X1 st = matchStepEnter R2 X2 st := by
  unfold matchStepEnter
  dsimp only
  rw [hR (st.re_indx : Int) (by omega), hX (st.xp_indx : Int) (by omega),
      hR ((st.re_indx : Int) - 1) (by omega), hX ((st.xp_indx : Int) - 1) (by omega)]

theorem matchStepExit_congr (R1 R2 X1 X2 : List Char) (rl xl : Nat) (st : MatchSt)
    (hR : ∀ i : Int, i < (rl : Int) → getC R1 i = getC R2 i)
    (hX : ∀ i : Int, i < (xl : Int) → getC X1 i = getC X2 i)
    (hre : st.re_indx < rl) (hxp : st.xp_indx < xl) :
    matchStepExit R1 X1 rl xl st = matchStepExit R2 X2 rl xl st := by
  unfold matchStepExit
  dsimp only
  rw [hR (st.re_indx : Int) (by omega), hX (st.xp_indx : Int) (by omega)]

theorem matchStepTail_congr (R1 R2 X1 X2 : List Char) (rl xl : Nat) (st : MatchSt)
    (hR : ∀ i : Int, i < (rl : Int) → getC R1 i = getC R2 i)
    (hX : ∀ i : Int, i < (xl : Int) → getC X1 i = getC X2 i)
    (hre : st.re_indx < rl) (hxp : st.xp_indx < xl) :
    matchStepTail R1 X1 st = matchStepTail R2 X2 st := by
  unfold matchStepTail
  dsimp only
  rw [hR (st.re_indx : Int) (by omega), hX (st.xp_indx : Int) (by omega)]

theorem matchStep_congr (R1 R2 X1 X2 : List Char) (rl xl : Nat) (st : MatchSt)
    (hR : ∀ i : Int, i < (rl : Int) → getC R1 i = getC R2 i)
    (hX : ∀ i : Int, i < (xl : Int) → getC X1 i = getC X2 i)
    (hre : st.re_indx < rl) (hxp : st.xp_indx < xl) :
    matchStep R1 X1 rl xl st = matchStep R2 X2 rl xl st := by
  unfold matchStep
  rw [matchStepEnter_congr R1 R2 X1 X2 rl xl st hR hX hre hxp]
  have hidx := matchStepEnter_indices R2 X2 st
  rw [matchStepExit_congr R1 R2 X1 X2 rl xl (matchStepEnter R2 X2 st) hR hX
      (hidx.1 ▸ hre) (hidx.2 ▸ hxp)]
  have hexit := matchStepExit_indices_lt R2 X2 rl xl (matchStepEnter R2 X2 st)
    (hidx.1 ▸ hre) (hidx.2 ▸ hxp)
  exact matchStepTail_congr R1 R2 X1 X2 rl xl _ hR hX hexit.1 hexit.2

theorem matchLoop_congr (R1 R2 X1 X2 : List Char) (rl xl : Nat)
    (hR : ∀ i : Int, i < (rl : Int) → getC R1 i = getC R2 i)
    (hX : ∀ i : Int, i < (xl : Int) → getC X1 i = getC X2 i) :
    ∀ (fuel : Nat) (st : MatchSt),
      matchLoop R1 X1 rl xl fuel st = matchLoop R2 X2 rl xl fuel st := by
  intro fuel
  induction fuel with
  | zero => intro st; rfl
  | succ n ih =>
    intro st
    rw [matchLoop, matchLoop]
    split
    · next h =>
      rw [matchStep_congr R1 R2 X1 X2 rl xl st hR hX h.2.1 h.2.2]
      exact ih _
    · rfl

theorem trimmedLen_append_star (l : List Char) :
    trimmedLen (l ++ ['*']) = l.length := by
  unfold trimmedLen
  rw [if_pos]
  · simp
  · constructor
    · simp
    · have h1 : ((l ++ ['*']).length : Int) - 1 = (l.length : Int) := by
        simp
      rw [h1]
      exact getC_append_self l '*'

theorem trimmedLen_no_star (l : List Char)
    (h : getC l ((l.length : Int) - 1) ≠ '*') :
    trimmedLen l = l.length := by
  unfold trimmedLen
  rw [if_neg]
  intro hc
  exact h hc.2

theorem mgmt_be_eval_regexp_match_star_pattern (p x : String)
    (hp : getC p.data ((p.data.length : Int) - 1) ≠ '*') :
    mgmt_be_eval_regexp_match (p ++ "*") x = mgmt_be_eval_regexp_match p x := by
  have hdata : (p ++ "*").data = p.data ++ ['*'] := rfl
  have htrim2 : trimmedLen ((p ++ "*").data) = p.data.length := by
    rw [hdata]; exact trimmedLen_append_star p.data
  have htrim1 : trimmedLen p.data = p.data.length := trimmedLen_no_star p.data hp
  have hR : ∀ i : Int, i < (p.data.length : Int) →
      getC ((p ++ "*").data) i = getC p.data i := by
    intro i hi
    rw [hdata]
    exact getC_append_lt p.data ['*'] i hi
  have hX : ∀ i : Int, i < ((trimmedLen x.data : Nat) : Int) →
      getC x.data i = getC x.data i := fun i _ => rfl
  unfold mgmt_be_eval_regexp_match
  dsimp only
  rw [htrim2, htrim1,
      matchLoop_congr ((p ++ "*").data) p.data x.data x.data
        p.data.length (trimmedLen x.data) hR hX
        (p.data.length + trimmedLen x.data) matchSt0]
  have hbound := matchLoop_indices_le p.data x.data p.data.length (trimmedLen x.data)
    (p.data.length + trimmedLen x.data) matchSt0 (Nat.zero_le _) (Nat.zero_le _)
  set stf := matchLoop p.data x.data p.data.length (trimmedLen x.data)
    (p.data.length + trimmedLen x.data) matchSt0 with hstf
  have hchar : (getC ((p ++ "*").data) (stf.re_indx : Int) = '/' ∨
      getC ((p ++ "*").data) (stf.re_indx : Int) = ']') ↔
      (getC p.data (stf.re_indx : Int) = '/' ∨
       getC p.data (stf.re_indx : Int) = ']') := by
    rcases Nat.lt_or_ge stf.re_indx p.data.length with hlt | hge
    · rw [hdata, getC_append_lt p.data ['*'] (stf.re_indx : Int) (by omega)]
    · have heq : stf.re_indx = p.data.length := le_antisymm hbound.1 hge
      have c1 : getC ((p ++ "*").data) (stf.re_indx : Int) = '*' := by
        rw [hdata, heq]
        exact getC_append_self p.data '*'
      have c2 : getC p.data (stf.re_indx : Int) = Char.ofNat 0 := by
        rw [heq]
        exact getC_ge_len p.data _ le_rfl
      rw [c1, c2]
      constructor
      · rintro (h | h) <;> exact absurd h (by decide)
      · rintro (h | h) <;> exact absurd h (by decide)
  exact if_congr Iff.rfl rfl
    (if_congr (and_congr_right fun _ => and_congr_right fun _ => hchar) rfl rfl)

theorem mgmt_be_eval_regexp_match_star_xpath (p x : String)
    (hx : getC x.data ((x.data.length : Int) - 1) ≠ '*') :
    mgmt_be_eval_regexp_match p (x ++ "*") = mgmt_be_eval_regexp_match p x := by
  have hdata : (x ++ "*").data = x.data ++ ['*'] := rfl
  have htrim2 : trimmedLen ((x ++ "*").data) = x.data.length := by
    rw [hdata]; exact trimmedLen_append_star x.data
  have htrim1 : trimmedLen x.data = x.data.length := trimmedLen_no_star x.data hx
  have hX : ∀ i : Int, i < (x.data.length : Int) →
      getC ((x ++ "*").data) i = getC x.data i := by
    intro i hi
    rw [hdata]
    exact getC_append_lt x.data ['*'] i hi
  have hR : ∀ i : Int, i < ((trimmedLen p.data : Nat) : Int) →
      getC p.data i = getC p.data i := fun i _ => rfl
  unfold mgmt_be_eval_regexp_match
  dsimp only
  rw [htrim2, htrim1,
      matchLoop_congr p.data p.data ((x ++ "*").data) x.data
        (trimmedLen p.data) x.data.length hR hX
        (trimmedLen p.data + x.data.length) matchSt0]

/-- C9: the match function trims one trailing star from each side
before matching (appending one star to a side whose last character is
not a star leaves the result unchanged); if either side is empty after
the trim the result is 0, and in particular matching `""` or `"*"` on
either side yields 0. -/
theorem C9_trailing_star_trim_and_empty (p x : String) :
    (trimmedLen p.data = 0 ∨ trimmedLen x.data = 0 →
       mgmt_be_eval_regexp_match p x = 0) ∧
    (getC p.data ((p.data.length : Int) - 1) ≠ '*' →
       mgmt_be_eval_regexp_match (p ++ "*") x = mgmt_be_eval_regexp_match p x) ∧
    (getC x.data ((x.data.length : Int) - 1) ≠ '*' →
       mgmt_be_eval_regexp_match p (x ++ "*") = mgmt_be_eval_regexp_match p x) ∧
    mgmt_be_eval_regexp_match p ("") = 0 ∧
    mgmt_be_eval_regexp_match p ("*") = 0 ∧
    mgmt_be_eval_regexp_match ("") x = 0 ∧
    mgmt_be_eval_regexp_match ("*") x = 0 := by
  have hzero : ∀ (a b : String), trimmedLen a.data = 0 ∨ trimmedLen b.data = 0 →
      mgmt_be_eval_regexp_match a b = 0 := by
    intro a b h
    unfold mgmt_be_eval_regexp_match
    dsimp only
    rw [if_pos h]
  refine ⟨hzero p x, mgmt_be_eval_regexp_match_star_pattern p x,
          mgmt_be_eval_regexp_match_star_xpath p x, ?_, ?_, ?_, ?_⟩
  · exact hzero p ("") (Or.inr rfl)
  · exact hzero p ("*") (Or.inr rfl)
  · exact hzero ("") x (Or.inl rfl)
  · exact hzero ("*") x (Or.inl rfl)

/-- Witness for C9 at the concrete pattern `/a` and instance `/b`. -/
theorem C9_trailing_star_trim_and_empty_witness :
    getC ("/a").data ((("/a").data.length : Int) - 1) ≠ '*' ∧
    mgmt_be_eval_regexp_match ("/a" ++ "*") ("/b") =
      mgmt_be_eval_regexp_match ("/a") ("/b") ∧
    mgmt_be_eval_regexp_match ("/a") ("") = 0 :=
  ⟨by decide,
   (C9_trailing_star_trim_and_empty ("/a") ("/b")).2.1 (by decide),
   (C9_trailing_star_trim_and_empty ("/a") ("")).2.2.2.1⟩

/-- C3 (code bug): on `SUBSCR_REQ` with the non-empty, unresolvable
client name `foobar`, the adapter is disconnected (TXN notified, fd
closed, registry emptied, memory freed) — but, with no early return in
the C after the disconnect, the handler still executes
`mgmt_be_adapters_by_id[adapter->id] = adapter` with
`id = MGMTD_BE_CLIENT_ID_MAX`: an index write that is not inside the
array bounds (`¬(MAX < MAX)`), installing a pointer to the
just-disconnected, freed adapter. -/
theorem C3_unresolved_subscr_req_out_of_bounds_write :
    (mgmt_be_adapter_handle_subscr_req subscrReqInitState 0 ("foobar")).byIdWrites =
      [(MGMTD_BE_CLIENT_ID_MAX, some 0)] ∧
    ¬(MGMTD_BE_CLIENT_ID_MAX < MGMTD_BE_CLIENT_ID_MAX) ∧
    (mgmt_be_adapter_handle_subscr_req subscrReqInitState 0 ("foobar")).freed = [0] ∧
    (mgmt_be_adapter_handle_subscr_req subscrReqInitState 0 ("foobar")).txnNotifs =
      [(0, false)] := by
  decide

/-- C5 counterexample: disconnecting the same adapter twice is not a
no-op after the first call — on a concrete two-reference adapter the
second call changes the state again (a second TXN notification, a
further reference drop, and the free). -/
theorem C5_disconnect_twice_counterexample :
    mgmt_be_adapter_disconnect (mgmt_be_adapter_disconnect doubleDisconnectState 0) 0 ≠
      mgmt_be_adapter_disconnect doubleDisconnectState 0 := by
  decide

theorem findA_map_updK (l : List (Nat × BeAdapter)) (k : Nat) (f : BeAdapter → BeAdapter) :
    findA (l.map (updK k f)) k = (findA l k).map f := by
  induction l with
  | nil => rfl
  | cons e rest ih =>
    by_cases he : e.1 = k
    · simp [findA, updK, List.find?_cons, he]
    · simp only [findA, updK, List.map_cons, List.find?_cons, if_neg he] at ih ⊢
      rw [decide_eq_false he]
      exact ih

theorem getAdapter_updAdapter (s : BeState) (k : Nat) (f : BeAdapter → BeAdapter) :
    getAdapter (updAdapter s k f) k = (getAdapter s k).map f := by
  unfold getAdapter updAdapter
  dsimp only
  exact findA_map_updK s.store k f


/-- C5 (amended): after a first disconnect has closed the fd, cleared
the id and removed the adapter from the registry, a second
`mgmt_be_adapter_disconnect` leaves the fd, the by-id index and the
registry exactly as the first call left them, but is not a no-op: it
appends a second TXN disconnect notification and drops one further
reference (the adapter surviving here because the count stays
positive; at zero it is freed, as the counterexample shows). -/
theorem C5_second_disconnect_renotifies_and_drops_ref (t : BeState) (k : Nat) (a : BeAdapter)
    (ha : getAdapter t k = some a) (hfd : a.conn_fd = -1)
    (hid : a.id = MGMTD_BE_CLIENT_ID_MAX) (hk : ¬(k ∈ t.adapters)) (hrc : 2 ≤ a.refcount) :
    (mgmt_be_adapter_disconnect t k).byId = t.byId ∧
    (mgmt_be_adapter_disconnect t k).byIdWrites = t.byIdWrites ∧
    (mgmt_be_adapter_disconnect t k).adapters = t.adapters ∧
    (mgmt_be_adapter_disconnect t k).freed = t.freed ∧
    (mgmt_be_adapter_disconnect t k).txnNotifs = t.txnNotifs ++ [(k, false)] ∧
    getAdapter (mgmt_be_adapter_disconnect t k) k =
      some { a with refcount := a.refcount - 1 } := by
  have hg : (if 0 ≤ a.conn_fd then { a with conn_fd := -1 } else a) = a := by
    rw [hfd]
    norm_num
  unfold mgmt_be_adapter_disconnect
  rw [ha]
  dsimp only
  rw [hid, if_neg (lt_irrefl MGMTD_BE_CLIENT_ID_MAX)]
  unfold mgmt_be_adapter_unlock getAdapter updAdapter
  dsimp only
  rw [findA_map_updK]
  rw [show findA t.store k = some a from ha]
  rw [show Option.map (fun a0 : BeAdapter =>
      if 0 ≤ a0.conn_fd then { a0 with conn_fd := -1 } else a0) (some a) = some a from by
    rw [Option.map_some']
    rw [hg]]
  dsimp only
  rw [if_neg (by omega)]
  refine ⟨rfl, rfl, List.erase_of_not_mem hk, rfl, rfl, ?_⟩
  dsimp only
  rw [findA_map_updK, findA_map_updK]
  rw [show findA t.store k = some a from ha]
  rw [Option.map_some', hg, Option.map_some', hid]

/-- Witness for the amended C5 at a concrete disconnected adapter. -/
theorem C5_second_disconnect_renotifies_and_drops_ref_witness :
    getAdapter c5WitnessState 0 =
      some ⟨-1, "staticd", MGMTD_BE_CLIENT_ID_MAX, 2, false, false⟩ ∧
    (mgmt_be_adapter_disconnect c5WitnessState 0).txnNotifs = [(0, false)] ∧
    getAdapter (mgmt_be_adapter_disconnect c5WitnessState 0) 0 =
      some ⟨-1, "staticd", MGMTD_BE_CLIENT_ID_MAX, 1, false, false⟩ := by
  have h := C5_second_disconnect_renotifies_and_drops_ref c5WitnessState 0
    ⟨-1, "staticd", MGMTD_BE_CLIENT_ID_MAX, 2, false, false⟩
    (by decide) (by decide) (by decide) (by decide) (by decide)
  refine ⟨by decide, ?_, ?_⟩
  · rw [h.2.2.2.2.1]
    rfl
  · rw [h.2.2.2.2.2]
    rfl

theorem WStep_preserves_writes_off_inv {a b : WAdapterSt}
    (hs : WStep a b) (hinv : a.writes_off = true → a.conn_write_ev = false) :
    b.writes_off = true → b.conn_write_ev = false := by
  cases hs with
  | send =>
    obtain ⟨w, cw, won⟩ := a
    revert hinv
    cases w <;> cases cw <;> cases won <;> decide
  | fire_write rv h =>
    obtain ⟨w, cw, won⟩ := a
    revert hinv h
    cases rv <;> cases w <;> cases cw <;> cases won <;> decide
  | fire_writes_on h =>
    obtain ⟨w, cw, won⟩ := a
    revert hinv h
    cases w <;> cases cw <;> cases won <;> decide

/-- C8: in every reachable state, while `WRITES_OFF` is set no write
event is armed; the writes-off framer verdict sets the flag together
with arming the `WRITES_ON` timer; and the only step that clears the
flag is the `WRITES_ON` timer handler firing. -/
theorem C8_writes_off_invariant :
    (∀ a : WAdapterSt, WReachable a → a.writes_off = true → a.conn_write_ev = false) ∧
    (∀ a : WAdapterSt,
       (mgmt_be_adapter_write MgmtMsgWSched.MSW_SCHED_WRITES_OFF a).writes_off = true ∧
       (mgmt_be_adapter_write MgmtMsgWSched.MSW_SCHED_WRITES_OFF a).conn_writes_on = true) ∧
    (∀ a b : WAdapterSt, WStep a b → a.writes_off = true → b.writes_off = false →
       a.conn_writes_on = true ∧
       b = mgmt_be_adapter_resume_writes { a with conn_writes_on := false }) := by
  refine ⟨?_, ?_, ?_⟩
  · intro a hr
    induction hr with
    | init => intro h; exact absurd h Bool.false_ne_true
    | step hr hs ih => exact WStep_preserves_writes_off_inv hs ih
  · intro a
    exact ⟨rfl, rfl⟩
  · intro a b hs
    cases hs with
    | send =>
      obtain ⟨w, cw, won⟩ := a
      cases w <;> cases cw <;> cases won <;> decide
    | fire_write rv h =>
      obtain ⟨w, cw, won⟩ := a
      revert h
      cases rv <;> cases w <;> cases cw <;> cases won <;> decide
    | fire_writes_on h =>
      obtain ⟨w, cw, won⟩ := a
      revert h
      cases w <;> cases cw <;> cases won <;> decide

/-- Witness for C8 at the concrete reachable state reached by a send
followed by the write handler reporting writes-off: the flag is set,
the `WRITES_ON` timer is armed, and no write event is armed. -/
theorem C8_writes_off_invariant_witness :
    WReachable ⟨true, false, true⟩ ∧
    (⟨true, false, true⟩ : WAdapterSt).writes_off = true ∧
    (⟨true, false, true⟩ : WAdapterSt).conn_write_ev = false := by
  have r1 : WReachable ⟨false, true, false⟩ :=
    WReachable.step WReachable.init (WStep.send ⟨false, false, false⟩)
  have r2 : WReachable ⟨true, false, true⟩ :=
    WReachable.step r1
      (WStep.fire_write ⟨false, true, false⟩ MgmtMsgWSched.MSW_SCHED_WRITES_OFF rfl)
  exact ⟨r2, rfl, C8_writes_off_invariant.1 ⟨true, false, true⟩ r2 rfl⟩

/-- C7: each transaction fan-out send returns a negative status
exactly when the adapter's connection is closed (`fd == -1`), and on a
closed connection nothing is enqueued (the adapter, outbound queue
included, is untouched). -/
theorem C7_send_negative_iff_closed (adapter : BeSendAdapter) (txn_id batch_id : Nat)
    (cfg_req : MgmtBeCfgReq) (eod : Bool) :
    ((mgmt_be_create_txn adapter txn_id).1 < 0 ↔ adapter.conn_fd = -1) ∧
    ((mgmt_be_destroy_txn adapter txn_id).1 < 0 ↔ adapter.conn_fd = -1) ∧
    ((mgmt_be_send_cfg_data_create_req adapter txn_id batch_id cfg_req eod).1 < 0 ↔
       adapter.conn_fd = -1) ∧
    ((mgmt_be_send_cfg_apply_req adapter txn_id).1 < 0 ↔ adapter.conn_fd = -1) ∧
    (adapter.conn_fd = -1 →
       (mgmt_be_create_txn adapter txn_id).2 = adapter ∧
       (mgmt_be_destroy_txn adapter txn_id).2 = adapter ∧
       (mgmt_be_send_cfg_data_create_req adapter txn_id batch_id cfg_req eod).2 = adapter ∧
       (mgmt_be_send_cfg_apply_req adapter txn_id).2 = adapter) := by
  unfold mgmt_be_create_txn mgmt_be_destroy_txn mgmt_be_send_cfg_data_create_req
    mgmt_be_send_cfg_apply_req mgmt_be_send_txn_req mgmt_be_send_cfgdata_create_req
    mgmt_be_send_cfgapply_req mgmt_be_adapter_send_msg mgmt_msg_send_msg
  by_cases h : adapter.conn_fd = -1
  · simp [h]
  · simp only [h, if_neg, if_false, iff_false, not_lt]
    refine ⟨?_, ?_, ?_, ?_, fun hc => hc.elim⟩ <;>
      simp [h]

/-- Witness for C7 at a closed and an open adapter. -/
theorem C7_send_negative_iff_closed_witness :
    ((mgmt_be_create_txn ⟨-1, ⟨[]⟩⟩ 7).1 < 0 ↔ (⟨-1, ⟨[]⟩⟩ : BeSendAdapter).conn_fd = -1) ∧
    ((mgmt_be_create_txn ⟨5, ⟨[]⟩⟩ 7).1 < 0 ↔ (⟨5, ⟨[]⟩⟩ : BeSendAdapter).conn_fd = -1) ∧
    (mgmt_be_create_txn ⟨-1, ⟨[]⟩⟩ 7).2 = ⟨-1, ⟨[]⟩⟩ :=
  ⟨(C7_send_negative_iff_closed ⟨-1, ⟨[]⟩⟩ 7 0 ⟨0⟩ false).1,
   (C7_send_negative_iff_closed ⟨5, ⟨[]⟩⟩ 7 0 ⟨0⟩ false).1,
   ((C7_send_negative_iff_closed ⟨-1, ⟨[]⟩⟩ 7 0 ⟨0⟩ false).2.2.2.2 rfl).1⟩

theorem iter_and_get_cfg_fold (adapter_id : Nat) :
    ∀ (ds : List String) (acc : List NbConfigChange) (n : Nat),
      ((ds.foldl (mgmt_be_iter_and_get_cfg adapter_id) (acc, n)).1).map (fun c => c.xpath) =
        acc.map (fun c => c.xpath) ++ ds.filter (fun xp =>
          ((mgmt_be_get_subscr_info_for_xpath xp).xpath_subscr.getD adapter_id
             subscrZero).subscribed) := by
  intro ds
  induction ds with
  | nil => intro acc n; simp
  | cons xp rest ih =>
    intro acc n
    rw [List.foldl_cons, List.filter_cons]
    by_cases hp : ((mgmt_be_get_subscr_info_for_xpath xp).xpath_subscr.getD adapter_id
        subscrZero).subscribed = true
    · have hstep : mgmt_be_iter_and_get_cfg adapter_id (acc, n) xp =
          (acc ++ [⟨xp, n⟩], n + 1) := by
        unfold mgmt_be_iter_and_get_cfg nb_config_diff_created
        dsimp only
        rw [if_neg (fun hc => hc hp)]
      rw [hstep, ih, if_pos hp]
      simp
    · have hstep : mgmt_be_iter_and_get_cfg adapter_id (acc, n) xp = (acc, n) := by
        unfold mgmt_be_iter_and_get_cfg
        dsimp only
        rw [if_pos hp]
      rw [hstep, ih, if_neg hp]

/-- C6: `mgmt_be_get_adapter_config` walks the datastore at most once
per adapter — with a non-empty cached change set it returns the cache
and ignores the datastore entirely — and when it does walk from `/` it
emits a change for a node exactly when the resolved subscription for
that node's xpath marks the adapter's own client id as subscribed. -/
theorem C6_adapter_config_cached_and_filtered (adapter : CfgAdapter) (ds : List String) :
    (adapter.cfg_chgs.isEmpty = false →
       mgmt_be_get_adapter_config adapter ds = (adapter.cfg_chgs, adapter) ∧
       ∀ ds2 : List String,
         mgmt_be_get_adapter_config adapter ds = mgmt_be_get_adapter_config adapter ds2) ∧
    (adapter.cfg_chgs.isEmpty = true →
       ((mgmt_be_get_adapter_config adapter ds).1).map (fun c => c.xpath) =
         ds.filter (fun xp =>
           ((mgmt_be_get_subscr_info_for_xpath xp).xpath_subscr.getD adapter.id
              subscrZero).subscribed)) := by
  constructor
  · intro h
    unfold mgmt_be_get_adapter_config
    rw [if_neg (by rw [h]; exact Bool.false_ne_true)]
    refine ⟨rfl, fun ds2 => ?_⟩
    rw [if_neg (by rw [h]; exact Bool.false_ne_true)]
  · intro h
    unfold mgmt_be_get_adapter_config mgmt_ds_iter_data
    rw [if_pos h]
    dsimp only
    have := iter_and_get_cfg_fold adapter.id ds [] 0
    simpa using this

set_option maxRecDepth 8000 in
/-- Witness for C6: a cached adapter returns its cache; an empty one
walking a two-node datastore emits only the subscribed node. -/
theorem C6_adapter_config_cached_and_filtered_witness :
    (⟨0, [⟨"/a", 0⟩]⟩ : CfgAdapter).cfg_chgs.isEmpty = false ∧
    mgmt_be_get_adapter_config ⟨0, [⟨"/a", 0⟩]⟩ (("/b") :: []) =
      ([⟨"/a", 0⟩], ⟨0, [⟨"/a", 0⟩]⟩) ∧
    ((mgmt_be_get_adapter_config ⟨0, []⟩ (("/frr-vrf:lib/x") :: ("/zzz") :: [])).1).map
        (fun c => c.xpath) = ("/frr-vrf:lib/x") :: [] := by
  refine ⟨by decide, ?_, ?_⟩
  · exact ((C6_adapter_config_cached_and_filtered ⟨0, [⟨"/a", 0⟩]⟩ (("/b") :: [])).1
      (by decide)).1
  · have h := (C6_adapter_config_cached_and_filtered ⟨0, []⟩
      (("/frr-vrf:lib/x") :: ("/zzz") :: [])).2 (by decide)
    rw [h]
    decide

theorem updK_fst (k : Nat) (f : BeAdapter → BeAdapter) (e : Nat × BeAdapter) :
    (updK k f e).1 = e.1 := by
  unfold updK
  split_ifs with h
  · exact h.symm
  · rfl

theorem findA_map_updK_conn_fd (l : List (Nat × BeAdapter)) (k : Nat)
    (f : BeAdapter → BeAdapter) (hf : ∀ a0, (f a0).conn_fd = a0.conn_fd) :
    ∀ o, (findA (l.map (updK k f)) o).map (fun a0 => a0.conn_fd) =
      (findA l o).map (fun a0 => a0.conn_fd) := by
  induction l with
  | nil => intro o; rfl
  | cons e rest ih =>
    intro o
    unfold findA at ih ⊢
    rw [List.map_cons]
    have hfst : (updK k f e).1 = e.1 := updK_fst k f e
    by_cases heo : e.1 = o
    · have h1 : (fun x : Nat × BeAdapter => decide (x.1 = o)) (updK k f e) = true := by
        simp [hfst, heo]
      have h2 : (fun x : Nat × BeAdapter => decide (x.1 = o)) e = true := by
        simp [heo]
      rw [show List.find? (fun x : Nat × BeAdapter => decide (x.1 = o))
            (updK k f e :: List.map (updK k f) rest) = some (updK k f e) from
          List.find?_cons_of_pos _ h1,
          show List.find? (fun x : Nat × BeAdapter => decide (x.1 = o)) (e :: rest) =
            some e from List.find?_cons_of_pos _ h2]
      unfold updK
      split_ifs with hek
      · simp [hf]
      · simp
    · have h1 : ¬((fun x : Nat × BeAdapter => decide (x.1 = o)) (updK k f e) = true) := by
        simp [hfst, heo]
      have h2 : ¬((fun x : Nat × BeAdapter => decide (x.1 = o)) e = true) := by
        simp [heo]
      rw [show List.find? (fun x : Nat × BeAdapter => decide (x.1 = o))
            (updK k f e :: List.map (updK k f) rest) =
            List.find? (fun x : Nat × BeAdapter => decide (x.1 = o))
              (List.map (updK k f) rest) from List.find?_cons_of_neg _ h1,
          show List.find? (fun x : Nat × BeAdapter => decide (x.1 = o)) (e :: rest) =
            List.find? (fun x : Nat × BeAdapter => decide (x.1 = o)) rest from
          List.find?_cons_of_neg _ h2]
      exact ih o

theorem findA_append (l1 l2 : List (Nat × BeAdapter)) (o : Nat) :
    findA (l1 ++ l2) o = (findA l1 o).or (findA l2 o) := by
  unfold findA
  rw [List.find?_append]
  cases l1.find? (fun e => decide (e.1 = o)) <;> rfl

/-- C10: `mgmt_be_create_adapter` is per-fd idempotent at the public
interface: when a live adapter already owns the given fd, the call
returns it without allocating (registry, allocation counter and store
size unchanged) and with its record — name, id, refcount — unchanged
apart from arming `CONN_INIT`; in all cases the returned adapter ends
with `CONN_INIT` armed; and the call preserves the
at-most-one-adapter-per-fd property of the registry. -/
theorem C10_create_adapter_per_fd_idempotent (s : BeState) (conn_fd : Int)
    (hfresh : ∀ e ∈ s.store, e.1 < s.nextKey)
    (hreg : ∀ k ∈ s.adapters, k < s.nextKey) :
    (∀ k, mgmt_be_find_adapter_by_fd s conn_fd = some k →
       (mgmt_be_create_adapter s conn_fd).1 = k ∧
       (mgmt_be_create_adapter s conn_fd).2.adapters = s.adapters ∧
       (mgmt_be_create_adapter s conn_fd).2.nextKey = s.nextKey ∧
       (mgmt_be_create_adapter s conn_fd).2.store.length = s.store.length ∧
       getAdapter (mgmt_be_create_adapter s conn_fd).2 k =
         (getAdapter s k).map (fun a0 => { a0 with conn_init_ev := true })) ∧
    ((getAdapter (mgmt_be_create_adapter s conn_fd).2
        (mgmt_be_create_adapter s conn_fd).1).map (fun a0 => a0.conn_init_ev) =
      some true) ∧
    (AtMostOnePerFd s → AtMostOnePerFd (mgmt_be_create_adapter s conn_fd).2) := by
  cases hfind : mgmt_be_find_adapter_by_fd s conn_fd with
  | some k0 =>
    have hpred := List.find?_some hfind
    have hk0fd : (getAdapter s k0).map (fun a0 => a0.conn_fd) = some conn_fd := by
      simpa using hpred
    obtain ⟨a0, ha0, hafd⟩ := Option.map_eq_some'.mp hk0fd
    have hcreate : mgmt_be_create_adapter s conn_fd =
        (k0, updAdapter s k0 (fun x => { x with conn_init_ev := true })) := by
      unfold mgmt_be_create_adapter
      rw [hfind]
    rw [hcreate]
    refine ⟨?_, ?_, ?_⟩
    · intro k hk
      obtain rfl : k0 = k := Option.some.inj hk
      refine ⟨rfl, rfl, rfl, ?_, ?_⟩
      · unfold updAdapter
        exact List.length_map s.store (updK k0 _)
      · exact getAdapter_updAdapter s k0 _
    · dsimp only
      rw [getAdapter_updAdapter s k0 _, ha0]
      rfl
    · intro hone
      unfold AtMostOnePerFd at hone ⊢
      dsimp only
      refine List.Pairwise.imp_of_mem ?_ hone
      intro o1 o2 _ _ hr
      have e1 := findA_map_updK_conn_fd s.store k0
        (fun x => { x with conn_init_ev := true }) (fun _ => rfl) o1
      have e2 := findA_map_updK_conn_fd s.store k0
        (fun x => { x with conn_init_ev := true }) (fun _ => rfl) o2
      unfold getAdapter at hr
      unfold getAdapter updAdapter
      dsimp only
      rw [e1, e2]
      exact hr
  | none =>
    have hnotin : ∀ o ∈ s.adapters,
        ¬((getAdapter s o).map (fun a0 => a0.conn_fd) = some conn_fd) := by
      intro o ho
      have := List.find?_eq_none.mp hfind o ho
      simpa using this
    have hcreate : mgmt_be_create_adapter s conn_fd =
        (s.nextKey,
         updAdapter
           { s with
             store := s.store ++
               [(s.nextKey,
                 { conn_fd := conn_fd, name := "Unknown-FD-" ++ toString conn_fd,
                   id := MGMTD_BE_CLIENT_ID_MAX, refcount := 1,
                   conn_init_ev := false, conn_read_ev := true })],
             adapters := s.adapters ++ [s.nextKey],
             nextKey := s.nextKey + 1 }
           s.nextKey (fun x => { x with conn_init_ev := true })) := by
      unfold mgmt_be_create_adapter
      rw [hfind]
    have hfindnew : findA (s.store ++
        [(s.nextKey,
          { conn_fd := conn_fd, name := "Unknown-FD-" ++ toString conn_fd,
            id := MGMTD_BE_CLIENT_ID_MAX, refcount := 1,
            conn_init_ev := false, conn_read_ev := true })]) s.nextKey =
        some { conn_fd := conn_fd, name := "Unknown-FD-" ++ toString conn_fd,
               id := MGMTD_BE_CLIENT_ID_MAX, refcount := 1,
               conn_init_ev := false, conn_read_ev := true } := by
      rw [findA_append]
      have hstnone : findA s.store s.nextKey = none := by
        unfold findA
        rw [List.find?_eq_none.mpr]
        · rfl
        · intro e he
          have := hfresh e he
          simp
          omega
      rw [hstnone]
      simp [findA]
    have hfindold : ∀ o, o < s.nextKey → findA (s.store ++
        [(s.nextKey,
          { conn_fd := conn_fd, name := "Unknown-FD-" ++ toString conn_fd,
            id := MGMTD_BE_CLIENT_ID_MAX, refcount := 1,
            conn_init_ev := false, conn_read_ev := true })]) o = findA s.store o := by
      intro o holt
      rw [findA_append]
      have h2 : findA [(s.nextKey,
          { conn_fd := conn_fd, name := "Unknown-FD-" ++ toString conn_fd,
            id := MGMTD_BE_CLIENT_ID_MAX, refcount := 1,
            conn_init_ev := false, conn_read_ev := true })] o = none := by
        unfold findA
        rw [List.find?_eq_none.mpr]
        · rfl
        · intro e he
          rw [List.mem_singleton.mp he]
          simp
          omega
      rw [h2]
      cases findA s.store o <;> rfl
    rw [hcreate]
    refine ⟨?_, ?_, ?_⟩
    · intro k hk
      exact absurd hk (by simp)
    · dsimp only
      rw [getAdapter_updAdapter]
      unfold getAdapter
      dsimp only
      rw [hfindnew]
      rfl
    · intro hone
      unfold AtMostOnePerFd at hone ⊢
      unfold getAdapter at hone
      unfold updAdapter getAdapter
      dsimp only
      have efd := findA_map_updK_conn_fd
        (s.store ++
          [(s.nextKey,
            { conn_fd := conn_fd, name := "Unknown-FD-" ++ toString conn_fd,
              id := MGMTD_BE_CLIENT_ID_MAX, refcount := 1,
              conn_init_ev := false, conn_read_ev := true })])
        s.nextKey (fun x => { x with conn_init_ev := true }) (fun _ => rfl)
      rw [List.pairwise_append]
      refine ⟨?_, ?_, ?_⟩
      · refine List.Pairwise.imp_of_mem ?_ hone
        intro o1 o2 h1 h2 hr
        rw [efd o1, efd o2, hfindold o1 (hreg o1 h1), hfindold o2 (hreg o2 h2)]
        exact hr
      · simp
      · intro o ho b hb
        have hbnk : b = s.nextKey := List.mem_singleton.mp hb
        subst hbnk
        rw [efd o, efd s.nextKey, hfindold o (hreg o ho), hfindnew]
        intro hc
        exact hnotin o ho (by
          unfold getAdapter
          rw [hc]
          rfl)

/-- Witness for C10 at a concrete one-adapter registry and its fd. -/
theorem C10_create_adapter_per_fd_idempotent_witness :
    mgmt_be_find_adapter_by_fd subscrReqInitState 5 = some 0 ∧
    (mgmt_be_create_adapter subscrReqInitState 5).1 = 0 ∧
    (mgmt_be_create_adapter subscrReqInitState 5).2.adapters =
      subscrReqInitState.adapters ∧
    (getAdapter (mgmt_be_create_adapter subscrReqInitState 5).2
        (mgmt_be_create_adapter subscrReqInitState 5).1).map
      (fun a0 => a0.conn_init_ev) = some true := by
  have h := C10_create_adapter_per_fd_idempotent subscrReqInitState 5
    (by decide) (by decide)
  have h0 : mgmt_be_find_adapter_by_fd subscrReqInitState 5 = some 0 := by decide
  exact ⟨h0, (h.1 0 h0).1, (h.1 0 h0).2.1, h.2.1⟩
